import Mathlib

/-!
Verification development for the data-pipeline component
(src/components/DataPipelineTab.tsx): a shallow embedding of the
cleaning routine `cleanData` and the query routine `executeQuery`,
followed by theorems settling the specification claims.

Modelling conventions:
* JS strings are Lean `String`; JS numbers are `ℚ` (the concrete values
  exercised here are exact in binary floating point, so `ℚ` is faithful);
  `undefined` is the value `Value.undef`; an absent object property is an
  absent key of the association list.
* JS objects (rows) are association lists `List (String × Value)` whose
  order models JS property insertion order; property assignment updates
  the first occurrence in place or appends a fresh key at the end.
* React state updates are modelled by return values: a callback that
  early-returns without calling any setter is modelled as `none`.
-/

/-! ### String helpers (models of the JS string operations used) -/

/-- Whitespace characters recognised by JS trim for the inputs in scope. -/
def isWsChar (c : Char) : Bool :=
  c = ' ' || c = '\t' || c = '\n' || c = '\r'

/-- Model of JS toLowerCase (ASCII; all data in scope is ASCII). -/
def lowerStr (s : String) : String :=
  String.mk (s.toList.map Char.toLower)

/-- Model of JS toUpperCase (ASCII). -/
def upperStr (s : String) : String :=
  String.mk (s.toList.map Char.toUpper)

/-- Model of JS String.trim: strip whitespace from both ends. -/
def trimStr (s : String) : String :=
  String.mk (((s.toList.dropWhile isWsChar).reverse.dropWhile isWsChar).reverse)

/-- The key normalisation `col.toLowerCase().trim()` used by the source. -/
def normKey (s : String) : String := trimStr (lowerStr s)

/-- Does the first char list start with the second? -/
def startsWithChars : List Char → List Char → Bool
  | _, [] => true
  | [], _ :: _ => false
  | c :: cs, d :: ds => c == d && startsWithChars cs ds

/-- Substring occurrence test over char lists. -/
def containsChars (pat : List Char) : List Char → Bool
  | [] => pat.isEmpty
  | c :: cs => startsWithChars (c :: cs) pat || containsChars pat cs

/-- Model of JS String.includes. -/
def containsSub (s pat : String) : Bool :=
  containsChars pat.toList s.toList

/-- A regex word character, as in the \w class: letters, digits, underscore. -/
def isWordChar (c : Char) : Bool := c.isAlphanum || c = '_'

/-- One pass of replace of word-boundary word chars by their uppercase
(the source pattern uppercases each word char preceded by a non-word
char or by the start of the string). The flag records whether the
previous char was a word char. -/
def titleChars : Bool → List Char → List Char
  | _, [] => []
  | prevWord, c :: cs =>
      (if isWordChar c && !prevWord then c.toUpper else c) :: titleChars (isWordChar c) cs

/-- Model of the source title-casing regex replace. -/
def titleCaseStr (s : String) : String :=
  String.mk (titleChars false s.toList)

/-! ### Numeric parsing (models of JS parseFloat / parseInt) -/

/-- Decimal value of a digit list. -/
def digitsToNat (ds : List Char) : ℕ :=
  ds.foldl (fun a c => 10 * a + (c.toNat - 48)) 0

/-- Model of JS parseFloat restricted to plain decimal literals
(optional leading whitespace, optional sign, digits, optional fraction).
Exponent notation and Infinity are not modelled; no claim depends on
them. `none` models a NaN result. -/
def parseFloatQ (s : String) : Option ℚ :=
  let cs0 := s.toList.dropWhile isWsChar
  let signed : ℚ × List Char :=
    match cs0 with
    | '-' :: r => (-1, r)
    | '+' :: r => (1, r)
    | _ => (1, cs0)
  let ip := signed.2.takeWhile Char.isDigit
  let rest := signed.2.dropWhile Char.isDigit
  let fp :=
    match rest with
    | '.' :: r => r.takeWhile Char.isDigit
    | _ => []
  if ip.isEmpty && fp.isEmpty then none
  else some (signed.1 * ((digitsToNat ip : ℚ) + (digitsToNat fp : ℚ) / ((10 : ℚ) ^ fp.length)))

/-- Model of JS parseInt in base 10 (optional leading whitespace, optional
sign, leading digit run). The hex 0x form is not modelled; no claim
depends on it. `none` models a NaN result. -/
def parseIntQ (s : String) : Option ℚ :=
  let cs0 := s.toList.dropWhile isWsChar
  let signed : ℚ × List Char :=
    match cs0 with
    | '-' :: r => (-1, r)
    | '+' :: r => (1, r)
    | _ => (1, cs0)
  let ds := signed.2.takeWhile Char.isDigit
  if ds.isEmpty then none else some (signed.1 * (digitsToNat ds : ℚ))

/-- Truncation toward zero, the behaviour of parseInt applied to the
decimal rendering of a number. -/
def jsTrunc (q : ℚ) : ℚ := ((q.num.tdiv (q.den : ℤ) : ℤ) : ℚ)

/-! ### Scalar values and rows -/

/-- A JS scalar as it occurs in this component: a string, a number, or
undefined. -/
inductive Value where
  | vStr (s : String)
  | vNum (q : ℚ)
  | undef
deriving DecidableEq, Repr

/-- JS truthiness of a cell value (empty string, 0 and undefined are
falsy). NaN is also falsy but is not representable in the model; every
NaN produced by the source is immediately replaced by 0 via the
logical-or-zero idiom, which the parse functions model with `Option`. -/
def truthy : Value → Bool
  | .vStr s => decide (s ≠ "")
  | .vNum q => decide (q ≠ 0)
  | .undef => false

def truthyOpt : Option Value → Bool
  | some v => truthy v
  | none => false

/-- Model of JS toString on a cell. The exact float rendering of JS is
not modelled (no claim depends on it); integers render as their digit
string, which is exact. toString of undefined throws in JS and is
unreachable behind the truthiness guards of the source. -/
def jsToString : Value → String
  | .vStr s => s
  | .vNum q => if q.den = 1 then toString q.num else toString q.num ++ "/" ++ toString q.den
  | .undef => "undefined"

/-- A row: a JS object as an insertion-ordered association list. -/
abbrev Row := List (String × Value)

/-- Property read: first occurrence wins (rows built by the model are
duplicate-free, matching JS objects). -/
def getPair {β : Type} : List (String × β) → String → Option β
  | [], _ => none
  | p :: rest, k => if p.1 = k then some p.2 else getPair rest k

/-- Property assignment: update the first occurrence in place, else
append - JS object update semantics including key order. -/
def setPair {β : Type} : List (String × β) → String → β → List (String × β)
  | [], k, v => [(k, v)]
  | p :: rest, k, v => if p.1 = k then (k, v) :: rest else p :: setPair rest k v

/-- parseFloat of a cell followed by the logical-or-zero default. -/
def parseFloatOr0 (v : Value) : ℚ :=
  match v with
  | .vNum q => q
  | .vStr s => (parseFloatQ s).getD 0
  | .undef => 0

/-- parseInt of a cell followed by the logical-or-zero default. -/
def parseIntOr0 (v : Value) : ℚ :=
  match v with
  | .vNum q => jsTrunc q
  | .vStr s => (parseIntQ s).getD 0
  | .undef => 0

/-- parseInt applied to a possibly absent property, or-zero defaulted. -/
def parseIntOpt (o : Option Value) : ℚ :=
  match o with
  | none => 0
  | some v => parseIntOr0 v

/-! ### The static column alias table (COLUMN_MAPPING in the source) -/

/-- The canonical-name to alias-list configuration, transcribed in
declaration order. -/
def COLUMN_MAPPING : List (String × List String) :=
  [ ("transaction_id", ["transaction_id", "transactionid", "txn_id", "transaction", "txn", "trans_id"]),
    ("date_of_sale", ["date_of_sale", "sale_date", "transaction_date", "purchase_date", "sale_datetime", "date"]),
    ("brand", ["brand", "product_brand", "company", "manufacturer", "product_label", "product_make"]),
    ("product_name", ["product_name", "item_name", "product", "item", "product_label", "item_description"]),
    ("category", ["category", "product_category", "product_type", "item_category", "category_name"]),
    ("sub_category", ["sub_category", "subcategory", "category_type", "item_subcategory"]),
    ("size", ["size", "product_size", "item_size", "garment_size", "shoe_size"]),
    ("color", ["color", "product_color", "item_color", "colour"]),
    ("price", ["price", "cost", "product_price", "item_price", "cost_price", "unit_price"]),
    ("discount_percent", ["discount_percent", "discount", "discount_rate", "discount_value"]),
    ("final_price", ["final_price", "price_after_discount", "sale_price", "final_cost", "net_price"]),
    ("quantity", ["quantity", "qty", "units", "item_count", "quantity_sold"]),
    ("payment_mode", ["payment_mode", "payment_method", "transaction_mode", "payment_type", "payment_method_type"]),
    ("store_location", ["store_location", "outlet", "store", "store_name", "location", "store_address"]),
    ("sales_channel", ["sales_channel", "channel", "selling_channel", "sale_channel", "channel_type"]),
    ("customer_id", ["customer_id", "user_id", "client_id", "customer_number", "account_id"]),
    ("customer_gender", ["customer_gender", "gender", "user_gender", "customer_sex"]),
    ("return_status", ["return_status", "is_returned", "return", "return_flag", "return_ind"]),
    ("return_reason", ["return_reason", "reason_for_return", "return_cause", "return_description", "reason"]),
    ("review_text", ["review_text", "customer_review", "feedback", "product_review", "review"]),
    ("co2_saved", ["co2_saved", "carbon_saved", "carbon_emission_saved", "co2_reduction"]),
    ("rating", ["rating", "product_rating", "customer_rating", "user_rating", "product_review_score"]),
    ("delivery_days", ["delivery_days", "days_to_deliver", "delivery_time", "shipping_days", "shipping_time"]) ]

/-! ### Cleaning logs -/

/-- Severity of a log entry, as in the CleaningLog interface. -/
inductive LogType where
  | info
  | success
  | warning
  | error
deriving DecidableEq, Repr

/-- A cleaning log entry. -/
structure CleaningLog where
  message : String
  type : LogType
deriving DecidableEq, Repr

/-! ### cleanData: the normalisation routine -/

/-- The foundColumns record of the source: scan COLUMN_MAPPING in
declaration order, and for each alias present among the (lowercased,
trimmed) keys of the first row, bind the matching original key to the
canonical name; a later match on the same original key overwrites the
earlier binding in place, as JS record assignment does. -/
def computeFoundColumns (rows : List Row) : List (String × String) :=
  let keys := (rows.headD []).map Prod.fst
  let dataColumns := keys.map normKey
  COLUMN_MAPPING.foldl
    (fun acc entry =>
      entry.2.foldl
        (fun acc variant =>
          if dataColumns.contains (normKey variant) then
            match keys.find? (fun col => normKey col == normKey variant) with
            | some orig => setPair acc orig entry.1
            | none => acc
          else acc)
        acc)
    []

/-- One rename pass over a row: first write each mapped column under its
canonical name (an original key absent from this row reads as
undefined), then copy every unmapped column through unchanged. -/
def renameRow (fc : List (String × String)) (row : Row) : Row :=
  let mapped := fc.foldl (fun (acc : Row) p => setPair acc p.2 ((getPair row p.1).getD Value.undef)) []
  row.foldl (fun acc p => if (getPair fc p.1).isSome then acc else setPair acc p.1 p.2) mapped

/-- The info log entries pushed while renaming one row: the source pushes
one entry per foundColumns binding inside the per-row map callback. The
source message wraps both names in single quotes; the quotes are elided
here, which no claim depends on. -/
def renameLogsFor (fc : List (String × String)) : List CleaningLog :=
  fc.map (fun p => ⟨"Renamed column " ++ p.1 ++ " to " ++ p.2, LogType.info⟩)

/-- The fill-missing-values idiom: when the property is falsy or the
empty string (the second disjunct of the source condition is subsumed by
the first), assign the default. -/
def defaultIfFalsy (row : Row) (key : String) (dflt : Value) : Row :=
  if truthyOpt (getPair row key) then row else setPair row key dflt

/-- The guarded-reassignment idiom used by every coercion and text
standardisation step: when the property is present and truthy, replace
it by a function of its value; otherwise leave the row unchanged. -/
def updateIfTruthy (row : Row) (key : String) (f : Value → Value) : Row :=
  match getPair row key with
  | some v => if truthy v then setPair row key (f v) else row
  | none => row

/-- Model of the source date rewrite new Date(v).toISOString().split at T,
restricted to its fixed point: a string already in YYYY-MM-DD shape is
recognised and kept, anything else is treated as a parse failure and the
original value is kept (the source catches the failure and keeps the
original). Other JS-parsable date spellings are not modelled; no claim
exercises date_of_sale. -/
def isoDateShape : List Char → Bool
  | [y1, y2, y3, y4, h1, m1, m2, h2, d1, d2] =>
      y1.isDigit && y2.isDigit && y3.isDigit && y4.isDigit &&
      h1 = '-' && m1.isDigit && m2.isDigit && h2 = '-' && d1.isDigit && d2.isDigit
  | _ => false

def jsDateToIso : Value → Option String
  | .vStr s => if isoDateShape s.toList then some s else none
  | _ => none

/-- Clamp to the closed interval from 0 to 100, the source
Math.max(0, Math.min(100, d)). -/
def clamp0100 (d : ℚ) : ℚ := max 0 (min 100 d)

/-- The per-row cleaning body (defaults, date rewrite, numeric coercions,
text standardisation), in source order. -/
def cleanRow (row : Row) : Row :=
  let r1 := defaultIfFalsy row "return_reason" (Value.vStr "No return reason")
  let r2 := defaultIfFalsy r1 "review_text" (Value.vStr "No review provided")
  let r3 := defaultIfFalsy r2 "rating" (Value.vNum 0)
  let r4 := defaultIfFalsy r3 "co2_saved" (Value.vNum 0)
  let r5 := updateIfTruthy r4 "date_of_sale"
    (fun v => match jsDateToIso v with | some s => Value.vStr s | none => v)
  let r6 := updateIfTruthy r5 "price" (fun v => Value.vNum (parseFloatOr0 v))
  let r7 := updateIfTruthy r6 "final_price" (fun v => Value.vNum (parseFloatOr0 v))
  let r8 := updateIfTruthy r7 "quantity" (fun v => Value.vNum (parseIntOr0 v))
  let r9 := updateIfTruthy r8 "rating" (fun v => Value.vNum (parseFloatOr0 v))
  let r10 := updateIfTruthy r9 "discount_percent" (fun v => Value.vNum (clamp0100 (parseFloatOr0 v)))
  let r11 := updateIfTruthy r10 "brand" (fun v => Value.vStr (trimStr (upperStr (jsToString v))))
  let r12 := updateIfTruthy r11 "category" (fun v => Value.vStr (trimStr (titleCaseStr (jsToString v))))
  let r13 := updateIfTruthy r12 "sub_category" (fun v => Value.vStr (trimStr (titleCaseStr (jsToString v))))
  let r14 := updateIfTruthy r13 "payment_mode" (fun v => Value.vStr (trimStr (upperStr (jsToString v))))
  let r15 := updateIfTruthy r14 "store_location" (fun v => Value.vStr (trimStr (titleCaseStr (jsToString v))))
  updateIfTruthy r15 "sales_channel" (fun v => Value.vStr (trimStr (titleCaseStr (jsToString v))))

/-- Outcome of one cleaning run: the cleaned rows (setCleanedData) and the
log entries (setCleaningLogs). -/
structure CleanResult where
  cleaned : List Row
  logs : List CleaningLog
deriving DecidableEq, Repr

/-- The body of cleanData on a non-empty input: rename every row (pushing
the per-row rename logs), then clean every row, then the fixed success
and info log tail, ending with the processed-row-count summary. -/
def cleanDataCore (rawData : List Row) : CleanResult :=
  let fc := computeFoundColumns rawData
  let renamed := rawData.map (renameRow fc)
  let renameLogs := rawData.flatMap (fun _ => renameLogsFor fc)
  let cleaned := renamed.map cleanRow
  ⟨cleaned,
    renameLogs ++
      [⟨"Column mapping completed", LogType.success⟩,
       ⟨"Data cleaning operations completed", LogType.success⟩,
       ⟨"Filled missing values with defaults", LogType.info⟩,
       ⟨"Converted numeric fields and standardized text", LogType.info⟩,
       ⟨"Data cleaning completed successfully. Processed " ++ toString cleaned.length ++ " rows.",
        LogType.success⟩]⟩

/-- The cleanData callback. The preserveRows flag is in scope in the
source (it is listed among the callback dependencies) but is never read
by the body. An empty rawData early-returns before any state update,
modelled as `none`. -/
def cleanData (preserveRows : Bool) (rawData : List Row) : Option CleanResult :=
  if rawData.isEmpty then none else some (cleanDataCore rawData)

/-! ### executeQuery: the query routine -/

/-- The query outcome passed to setQueryResult: the result rows and the
key list of the first result row (the query echo and wall-clock
executionTime fields are environment data, not modelled). -/
structure QueryResult where
  data : List Row
  columns : List String
deriving DecidableEq, Repr

/-- The executeQuery callback: on an empty table it early-returns with no
state update (`none`); otherwise it pattern-matches substrings of the
lowercased query - a slice when the query mentions select, overridden by
a hardcoded aggregate row for the sum(quantity), avg( and count(*)
substrings - and otherwise produces an empty result. -/
def executeQuery (query : String) (cleanedData : List Row) : Option QueryResult :=
  if cleanedData.isEmpty then none
  else
    let lq := lowerStr query
    let result :=
      if containsSub lq "select" then
        let base :=
          if containsSub lq "limit 1" then cleanedData.take 1
          else if containsSub lq "limit 5" then cleanedData.take 5
          else if containsSub lq "limit 3" then cleanedData.take 3
          else cleanedData.take 10
        if containsSub lq "sum(quantity)" then
          [[("total_sold", Value.vNum (cleanedData.foldl (fun s row => s + parseIntOpt (getPair row "quantity")) 0))]]
        else if containsSub lq "avg(" then
          [[("average_value", Value.vNum 42.5)]]
        else if containsSub lq "count(*)" then
          [[("count", Value.vNum (cleanedData.length : ℚ))]]
        else base
      else []
    some ⟨result, (result.headD []).map Prod.fst⟩

/-! ### General lemmas about the row operations -/

/-- Reading after an assignment: the assigned key reads the new value,
every other key is unaffected. -/
theorem getPair_setPair {β : Type} (r : List (String × β)) (k : String) (v : β) (q : String) :
    getPair (setPair r k v) q = if k = q then some v else getPair r q := by
  induction r with
  | nil => simp [setPair, getPair]
  | cons p rest ih =>
      by_cases hp : p.1 = k
      · by_cases hk : k = q
        · simp [setPair, getPair, hp, hk]
        · have hpq : ¬ p.1 = q := fun h => hk (hp.symm.trans h)
          simp [setPair, getPair, hp, hk, hpq]
      · by_cases hpq : p.1 = q
        · have hk : ¬ k = q := fun h => hp (hpq.trans h.symm)
          have hqk : ¬ q = k := fun h => hp (hpq.trans h)
          simp [setPair, getPair, hp, hpq, hk, hqk]
        · simp [setPair, getPair, hp, hpq, ih]

/-- Reading after a guarded reassignment step. -/
theorem getPair_updateIfTruthy (r : Row) (key : String) (f : Value → Value) (q : String) :
    getPair (updateIfTruthy r key f) q =
      if key = q then
        (match getPair r key with
         | some v => if truthy v then some (f v) else some v
         | none => none)
      else getPair r q := by
  unfold updateIfTruthy
  cases h : getPair r key with
  | none =>
      by_cases hk : key = q <;> simp [hk]
      exact (hk ▸ h).symm ▸ rfl
  | some v =>
      by_cases ht : truthy v <;> by_cases hk : key = q <;>
        simp [getPair_setPair, h, ht, hk]
      exact hk ▸ h

/-- Reading after a missing-value defaulting step. -/
theorem getPair_defaultIfFalsy (r : Row) (key : String) (d : Value) (q : String) :
    getPair (defaultIfFalsy r key d) q =
      if truthyOpt (getPair r key) then getPair r q
      else if key = q then some d else getPair r q := by
  unfold defaultIfFalsy
  split <;> simp [getPair_setPair]

/-- The discount_percent shape every cleaned row in fact has: either a
number in the closed interval from 0 to 100, or an untouched falsy cell
(absent, undefined, or the empty string). -/
def discountOkAmended (r : Row) : Bool :=
  match getPair r "discount_percent" with
  | none => true
  | some Value.undef => true
  | some (Value.vStr s) => decide (s = "")
  | some (Value.vNum q) => decide (0 ≤ q) && decide (q ≤ 100)

/-- The discount_percent shape the claim asserts: a number in the closed
interval from 0 to 100. -/
def discountInRange (r : Row) : Bool :=
  match getPair r "discount_percent" with
  | some (Value.vNum q) => decide (0 ≤ q) && decide (q ≤ 100)
  | _ => false

/-- Every row produced by the per-row cleaning body satisfies the amended
discount_percent shape. -/
theorem discountOkAmended_cleanRow (r : Row) : discountOkAmended (cleanRow r) = true := by
  unfold discountOkAmended cleanRow
  simp [getPair_updateIfTruthy, getPair_defaultIfFalsy]
  cases h : getPair r "discount_percent" with
  | none => simp [h]
  | some v =>
      by_cases ht : truthy v
      · have h1 : (0:ℚ) ≤ clamp0100 (parseFloatOr0 v) := le_max_left _ _
        have h2 : clamp0100 (parseFloatOr0 v) ≤ 100 := max_le (by norm_num) (min_le_left _ _)
        simp [h, ht, h1, h2]
      · cases v with
        | vStr s =>
            have hs : s = "" := by simpa [truthy] using ht
            subst hs
            simp [truthy]
        | vNum q =>
            have hq : q = 0 := by simpa [truthy] using ht
            subst hq
            simp [truthy]
        | undef => simp [h, ht]

/-- Whenever cleanData produces a result, its cleaned table is the input
table mapped rowwise through the rename pass and the cleaning body. -/
theorem cleanData_cleaned_spec (p : Bool) (rows : List Row) (res : CleanResult)
    (h : cleanData p rows = some res) :
    res.cleaned = rows.map (fun r => cleanRow (renameRow (computeFoundColumns rows) r)) := by
  unfold cleanData at h
  split at h
  · exact absurd h (by simp)
  · cases h
    simp [cleanDataCore, List.map_map, Function.comp]

/-! ### Concrete tables used by the claim theorems -/

/-- A table whose rows carry delivery_days values 2, 4 and 6. -/
def deliveryDaysTable : List Row :=
  [[("delivery_days", Value.vNum 2)], [("delivery_days", Value.vNum 4)], [("delivery_days", Value.vNum 6)]]

/-- A two-row table in which exactly one row satisfies the predicate
return_status equal to 1. -/
def returnStatusTable : List Row :=
  [[("return_status", Value.vStr "1")], [("return_status", Value.vStr "0")]]

/-- A two-row table with one renamable column (txn_id is an alias of the
canonical transaction_id). -/
def txnTable : List Row :=
  [[("txn_id", Value.vStr "a")], [("txn_id", Value.vStr "b")]]

/-- The brand example table of the specification. -/
def brandTable : List Row :=
  [[("brand", Value.vStr " nike ")], [("brand", Value.vStr "ADIDAS")]]

/-! ### Claim theorems -/

/-- Claim C1 (code_bug evidence): on a table with delivery_days values
2, 4 and 6, the query SELECT AVG(delivery_days) AS avg_delivery_time
FROM data does return a single-row result, but the row is the hardcoded
placeholder with value 42.5 under the column average_value - not the
arithmetic mean 4 under avg_delivery_time that the claim (and the
specification, which calls the 42.5 placeholder a defect) requires. -/
theorem executeQuery_avg_returns_hardcoded_placeholder :
    executeQuery "SELECT AVG(delivery_days) AS avg_delivery_time FROM data" deliveryDaysTable =
      some ⟨[[("average_value", Value.vNum 42.5)]], ["average_value"]⟩ ∧
    executeQuery "SELECT AVG(delivery_days) AS avg_delivery_time FROM data" deliveryDaysTable ≠
      some ⟨[[("avg_delivery_time", Value.vNum 4)]], ["avg_delivery_time"]⟩ := by
  have heq : executeQuery "SELECT AVG(delivery_days) AS avg_delivery_time FROM data" deliveryDaysTable =
      some ⟨[[("average_value", Value.vNum 42.5)]], ["average_value"]⟩ := rfl
  refine ⟨heq, fun hcontra => ?_⟩
  rw [heq] at hcontra
  have hcols := congrArg (Option.map QueryResult.columns) hcontra
  simp at hcols

/-- Claim C2 (code_bug evidence): the unparseable query SELECT FRM data
is not rejected - no QuerySyntaxError exists anywhere in the code - and
a result table (the first up-to-ten rows of the input) is produced. -/
theorem executeQuery_malformed_select_still_executes :
    executeQuery "SELECT FRM data" [[("brand", Value.vStr "X")]] =
      some ⟨[[("brand", Value.vStr "X")]], ["brand"]⟩ := rfl

/-- Claim C3 (code_bug evidence): on a two-row table in which exactly one
row satisfies the WHERE predicate return_status = 1, the query
SELECT COUNT(*) FROM data WHERE return_status = 1 returns the full table
length 2 - the WHERE clause is never evaluated - instead of the filtered
count 1 that the claim requires. -/
theorem executeQuery_count_ignores_where :
    executeQuery "SELECT COUNT(*) FROM data WHERE return_status = 1" returnStatusTable =
      some ⟨[[("count", Value.vNum 2)]], ["count"]⟩ ∧
    executeQuery "SELECT COUNT(*) FROM data WHERE return_status = 1" returnStatusTable ≠
      some ⟨[[("count", Value.vNum 1)]], ["count"]⟩ := by
  have heq : executeQuery "SELECT COUNT(*) FROM data WHERE return_status = 1" returnStatusTable =
      some ⟨[[("count", Value.vNum 2)]], ["count"]⟩ := rfl
  refine ⟨heq, fun hcontra => ?_⟩
  rw [heq] at hcontra
  have hdata := congrArg (Option.map QueryResult.data) hcontra
  simp at hdata

/-- Claim C4 (counterexample): a row whose discount_percent cell is the
empty string is left untouched by cleaning - the falsy guard skips the
parse-and-clamp step - so the cleaned value is the empty string, not a
number in the closed interval from 0 to 100 as the claim requires. -/
theorem cleanData_discount_empty_string_unchanged :
    (cleanData true [[("discount_percent", Value.vStr "")]]).map
      (fun res => res.cleaned.all discountInRange) = some false := by decide

/-- Claim C4 (amended): after cleaning, the discount_percent cell of
every row is either a number in the closed interval from 0 to 100, or an
untouched falsy value (absent, undefined, or the empty string); in
particular every truthy input cell does land in the interval. -/
theorem cleanData_discount_in_range_or_untouched (p : Bool) (rows : List Row) (res : CleanResult)
    (h : cleanData p rows = some res) :
    res.cleaned.all discountOkAmended = true := by
  rw [cleanData_cleaned_spec p rows res h]
  rw [List.all_eq_true]
  intro x hx
  rw [List.mem_map] at hx
  obtain ⟨y, -, rfl⟩ := hx
  exact discountOkAmended_cleanRow _

/-- Claim C4 witness: the amended theorem applied to a concrete one-row
table with a numeric discount_percent string. -/
theorem cleanData_discount_in_range_witness :
    ((cleanData true [[("discount_percent", Value.vStr "55")]]).getD ⟨[], []⟩).cleaned.all
      discountOkAmended = true :=
  cleanData_discount_in_range_or_untouched true [[("discount_percent", Value.vStr "55")]] _ rfl

/-- Claim C5 (counterexample): on the empty input table cleanData
early-returns before any state update, so there is no cleaned table and
no log at all - in particular no single error action as the claim
requires. -/
theorem cleanData_empty_input_produces_no_log :
    ¬ ∃ res, cleanData true [] = some res ∧ res.cleaned = [] ∧
        res.logs.length = 1 ∧
        res.logs.countP (fun l => decide (l.type = LogType.error)) = 1 := by
  rintro ⟨res, h, -⟩
  simp [cleanData] at h

/-- Claim C5 (amended): on the empty input table cleanData
short-circuits and produces nothing: no cleaned table and no actions,
for either value of the preserveRows flag. -/
theorem cleanData_empty_input_returns_none (p : Bool) : cleanData p [] = none := rfl

/-- Claim C6: on every non-empty input table (with preserveRows true),
cleaning returns a table that is exactly the input mapped rowwise
through the rename pass and the cleaning body - so the row count is
preserved and row i of the output is the cleaned form of row i of the
input, in the same order. -/
theorem cleanData_preserves_row_count_and_order (rows : List Row) (h : rows ≠ []) :
    ∃ res, cleanData true rows = some res ∧
      res.cleaned = rows.map (fun r => cleanRow (renameRow (computeFoundColumns rows) r)) ∧
      res.cleaned.length = rows.length := by
  have hne : ¬ rows.isEmpty = true := by simp [h]
  have hsome : cleanData true rows = some (cleanDataCore rows) := by
    unfold cleanData
    rw [if_neg hne]
  refine ⟨cleanDataCore rows, hsome, cleanData_cleaned_spec true rows _ hsome, ?_⟩
  simp [cleanDataCore]

/-- Claim C6 witness: the preservation theorem applied to a concrete
one-row table. -/
theorem cleanData_preserves_row_count_witness :
    ∃ res, cleanData true [[("brand", Value.vStr "x")]] = some res ∧
      res.cleaned = [[("brand", Value.vStr "x")]].map
        (fun r => cleanRow (renameRow (computeFoundColumns [[("brand", Value.vStr "x")]]) r)) ∧
      res.cleaned.length = [[("brand", Value.vStr "x")]].length :=
  cleanData_preserves_row_count_and_order [[("brand", Value.vStr "x")]] (by decide)

/-- Claim C7 (code_bug evidence): the rename log entry is pushed inside
the per-row map, so a two-row table with one renamed column produces two
identical info actions Renamed column txn_id to transaction_id - one per
row - rather than the single action per renamed column the claim
requires. -/
theorem cleanData_rename_logged_once_per_row :
    (cleanData true txnTable).map
      (fun res => res.logs.countP
        (fun l => decide (l.type = LogType.info) &&
          decide (l.message = "Renamed column txn_id to transaction_id"))) = some 2 := by decide

/-- Claim C8: cleaning uppercases and trims the brand cell of every row,
in order: on the rows with brand values nike (padded with spaces) and
ADIDAS, the cleaned brand values are NIKE and ADIDAS. -/
theorem cleanData_brand_uppercased_trimmed_example :
    (cleanData true brandTable).map
      (fun res => res.cleaned.map (fun r => getPair r "brand")) =
    some [some (Value.vStr "NIKE"), some (Value.vStr "ADIDAS")] := by decide

/-- Claim C9: the preserveRows flag is never read by the cleaning body,
so the cleaned rows and the action log are identical for both flag
values, on every input table. -/
theorem cleanData_independent_of_preserveRows (rows : List Row) :
    cleanData true rows = cleanData false rows := rfl

/-- Claim C10: on every non-empty table, a query whose lowercased text
does not contain the substring select produces the empty result - zero
rows and an empty column list - with no error. -/
theorem executeQuery_without_select_yields_empty (t : List Row) (q : String)
    (ht : t ≠ []) (hq : containsSub (lowerStr q) "select" = false) :
    executeQuery q t = some ⟨[], []⟩ := by
  cases t with
  | nil => exact absurd rfl ht
  | cons a l => simp [executeQuery, hq]

/-- Claim C10 witness: the theorem applied to a concrete one-row table
and a query without the select substring. -/
theorem executeQuery_without_select_witness :
    executeQuery "hello world" [[("a", Value.vStr "1")]] = some ⟨[], []⟩ :=
  executeQuery_without_select_yields_empty [[("a", Value.vStr "1")]] "hello world"
    (by decide) (by decide)
